import Mathlib

/-!
Verification of the flow backup/versioning store of the node-red-mcp-server
repository (src/tools/backup tools module).

The development shallowly embeds the backup subsystem:

* JSON payloads are modelled by the inductive `Json` below.  JSON numbers are
  restricted to integers (no claim exercises fractional numbers) and JSON
  `null` is omitted: in JavaScript, reading `.type` of a `null` array element
  throws, and no claim exercises null payload elements.
* `JSON.stringify` is modelled by `Json.stringify`.  Escaping inside string
  literals is modelled for quote and backslash only; no claim depends on the
  concrete escaped bytes, only on the serialization being a deterministic
  function of the payload.
* The SHA-256 hex digest is modelled by an explicit function parameter
  `hash : String → String` threaded through every operation; both creation and
  verification apply the same parameter, exactly as the code applies the same
  digest routine.
* The filesystem (backup directory, metadata index file and one JSON file per
  snapshot) is modelled by the state `FS`.  Snapshot file contents are held in
  parsed form (`StoredFile.decodable`) or as an undecodable blob, together
  with the byte size reported by `stat` — the pretty-printing whitespace the
  code writes is not modelled, only health aggregates that size.
* `Date` parsing of ISO timestamp strings is modelled by an explicit parameter
  `dateMs : String → Int` (milliseconds), and the current instant by `now`.
* Best-effort deletion (`try { unlink } catch {}`) is modelled by an oracle
  `unlinkFails : String → Bool` saying which deletions fail.
-/

/-- JSON values (numbers restricted to integers, `null` omitted, see above). -/
inductive Json where
  | str (s : String)
  | int (n : Int)
  | bool (b : Bool)
  | arr (elems : List Json)
  | obj (fields : List (String × Json))

/-- Escaping of one character inside a JSON string literal (quote and
backslash only; control characters are not modelled). -/
def escapeChar (c : Char) : String :=
  if c == '"' then "\\\"" else if c == '\\' then "\\\\" else Char.toString c

/-- Escaping of a JSON string literal body. -/
def escapeString (s : String) : String :=
  String.join (s.toList.map escapeChar)

mutual

/-- Model of `JSON.stringify` (compact form, insertion-ordered object keys,
as produced by V8 for the payloads this subsystem handles). -/
def Json.stringify : Json → String
  | .str s => "\"" ++ escapeString s ++ "\""
  | .int n => toString n
  | .bool b => if b then "true" else "false"
  | .arr xs => "[" ++ stringifyElems xs ++ "]"
  | .obj kvs => "\x7b" ++ stringifyFields kvs ++ "\x7d"

/-- Comma-separated serialization of array elements. -/
def stringifyElems : List Json → String
  | [] => ""
  | [x] => Json.stringify x
  | x :: y :: rest => Json.stringify x ++ "," ++ stringifyElems (y :: rest)

/-- Comma-separated serialization of object members. -/
def stringifyFields : List (String × Json) → String
  | [] => ""
  | [(k, v)] => "\"" ++ escapeString k ++ "\":" ++ Json.stringify v
  | (k, v) :: kv :: rest =>
      "\"" ++ escapeString k ++ "\":" ++ Json.stringify v ++ "," ++ stringifyFields (kv :: rest)

end

/-- Reading the `type` property of a flow element, as JavaScript property
access: a lookup on objects, `undefined` (`none`) on every other value. -/
def typeField (f : Json) : Option Json :=
  match f with
  | .obj kvs => lookupField kvs "type"
  | _ => none
where
  /-- First-match field lookup (model objects carry each key once). -/
  lookupField : List (String × Json) → String → Option Json
    | [], _ => none
    | (k, v) :: rest, key => if k == key then some v else lookupField rest key

/-- JavaScript truthiness of a JSON value. -/
def jsTruthy (v : Json) : Bool :=
  match v with
  | .str s => decide (s ≠ "")
  | .int n => decide (n ≠ 0)
  | .bool b => b
  | .arr _ => true
  | .obj _ => true

/-- Strict JavaScript inequality `v !== s` between a JSON value and a string
literal: false exactly when `v` is that string. -/
def strictNeStr (v : Json) (s : String) : Bool :=
  match v with
  | .str t => decide (t ≠ s)
  | _ => true

/-- The filter predicate of `flowsCount`: `f.type === "tab"`. -/
def isTabElem (f : Json) : Bool :=
  match typeField f with
  | some (.str s) => s == "tab"
  | _ => false

/-- The filter predicate of `nodesCount`:
`f.type && f.type !== "tab" && f.type !== "subflow"`. -/
def isNodeElem (f : Json) : Bool :=
  match typeField f with
  | some t => jsTruthy t && strictNeStr t "tab" && strictNeStr t "subflow"
  | none => false

/-- Result record of `analyzeFlows`. -/
structure Analysis where
  checksum : String
  flowsCount : Nat
  nodesCount : Nat
  size : Nat
deriving DecidableEq

/-- Translation of `analyzeFlows` from the source: checksum over the
serialized payload, tab count, node count, serialized length; an error when
the payload is not an array. -/
def analyzeFlows (hash : String → String) (flows : Json) : Except String Analysis :=
  match flows with
  | .arr elems =>
      .ok { checksum := hash (Json.stringify (.arr elems))
            flowsCount := (elems.filter isTabElem).length
            nodesCount := (elems.filter isNodeElem).length
            size := (Json.stringify (.arr elems)).length }
  | _ => .error "flows.json does not contain a valid flows array"

/-- The spec level `verify(payload, expectedChecksum)` operation: the code
inlines it in `getBackupFlows` (recompute the digest over the same
serialization and compare for equality). -/
def verifyFlows (hash : String → String) (flows : Json) (expected : String) : Bool :=
  hash (Json.stringify flows) == expected

/-- Characters admitted by the name pattern `[a-zA-Z0-9_-]`. -/
def nameChar (c : Char) : Bool :=
  (decide ('a' ≤ c) && decide (c ≤ 'z')) ||
  (decide ('A' ≤ c) && decide (c ≤ 'Z')) ||
  (decide ('0' ≤ c) && decide (c ≤ '9')) ||
  (c == '_') || (c == '-')

/-- The regex test from the source: name matches `[a-zA-Z0-9_-]{1,50}` whole. -/
def matchesNamePattern (s : String) : Bool :=
  decide (1 ≤ s.length) && decide (s.length ≤ 50) && s.toList.all nameChar

/-- ASCII lowering, modelling `String.prototype.toLowerCase` on the ASCII
names this code compares (reserved words are ASCII). -/
def jsToLower (s : String) : String :=
  String.mk (s.toList.map Char.toLower)

/-- Reserved-word test:
`["latest", "current", "temp", "backup"].includes(name.toLowerCase())`. -/
def isReservedName (s : String) : Bool :=
  (jsToLower s == "latest") || (jsToLower s == "current") ||
  (jsToLower s == "temp") || (jsToLower s == "backup")

/-- Removal of the characters the source strips from the timestamp:
`timestamp.replace(/[-:.]/g, "")`. -/
def stripTsChars (cs : List Char) : List Char :=
  cs.filter (fun c => !((c == '-') || (c == ':') || (c == '.')))

/-- Replacement of the first occurrence of `T` by `_`:
`.replace("T", "_")` on a string with at most one `T`. -/
def replaceFirstT : List Char → List Char
  | [] => []
  | c :: cs => if c == 'T' then '_' :: cs else c :: replaceFirstT cs

/-- The auto-generated backup name for a creation timestamp:
`backup_` plus the first 15 characters of the compacted timestamp. -/
def autoBackupName (ts : String) : String :=
  "backup_" ++ String.mk ((replaceFirstT (stripTsChars ts.toList)).take 15)

/-- Translation of `createBackupName`: a supplied truthy (non-empty) name is
validated against the pattern and the reserved list; an absent or empty name
is auto-generated with no validation. -/
def createBackupName (name : Option String) (timestamp : String) : Except String String :=
  match name with
  | some n =>
      if n ≠ "" then
        if !matchesNamePattern n then
          .error "Backup name must be 1-50 characters, letters/numbers/underscores/hyphens only"
        else if isReservedName n then
          .error ("\x27" ++ n ++ "\x27 is a reserved name")
        else
          .ok n
      else
        .ok (autoBackupName timestamp)
  | none => .ok (autoBackupName timestamp)

/-- Per-snapshot metadata record as stored in snapshot files. -/
structure BackupMeta where
  name : String
  timestamp : String
  reason : String
  checksum : String
  flowsCount : Nat
  nodesCount : Nat
  size : Nat
deriving DecidableEq

/-- Index entry: the snapshot metadata plus the backing filename. -/
structure BackupEntry where
  name : String
  timestamp : String
  reason : String
  checksum : String
  flowsCount : Nat
  nodesCount : Nat
  size : Nat
  filename : String
deriving DecidableEq

/-- Archive configuration stored inside the index document. -/
structure MetaConfig where
  maxBackups : Nat
  autoCleanup : Bool
deriving DecidableEq

/-- The archive index document (`backup_metadata.json`). -/
structure Metadata where
  version : String
  config : MetaConfig
  backups : List BackupEntry
deriving DecidableEq

/-- Contents of one snapshot file: the stored metadata and the flow payload. -/
structure BackupData where
  metadata : BackupMeta
  flows : Json

/-- A snapshot file on disk: either it parses as a `BackupData` record or it
is an undecodable blob; both carry the byte size `stat` reports. -/
inductive StoredFile where
  | decodable (data : BackupData) (byteSize : Nat)
  | undecodable (byteSize : Nat)

/-- The metadata index file on disk: parseable or not. -/
inductive MetaFile where
  | valid (m : Metadata)
  | invalid

/-- The filesystem state of one backup directory. -/
structure FS where
  dirExists : Bool
  metaFile : Option MetaFile
  files : List (String × StoredFile)

/-- Runtime configuration handed to the tools (`config.backup`). -/
structure BackupConfig where
  maxBackups : Option Nat
  autoCleanup : Option Bool

/-- JavaScript `v || d` defaulting on an optional number (`0` is falsy). -/
def jsOrDefaultNat (v : Option Nat) (d : Nat) : Nat :=
  match v with
  | some n => if n = 0 then d else n
  | none => d

/-- JavaScript `v || d` defaulting on an optional string (`""` is falsy). -/
def jsOrDefaultStr (v : Option String) (d : String) : String :=
  match v with
  | some s => if s = "" then d else s
  | none => d

/-- The fresh index document `ensureBackupDirectory` writes on first use. -/
def initialMetadata (cfg : BackupConfig) : Metadata :=
  { version := "1.0"
    config := { maxBackups := jsOrDefaultNat cfg.maxBackups 10
                autoCleanup := cfg.autoCleanup.getD true }
    backups := [] }

/-- Translation of `ensureBackupDirectory`: create the directory, and write a
fresh empty index only when no index file exists. -/
def ensureBackupDirectory (cfg : BackupConfig) (fs : FS) : FS :=
  let fs1 : FS := { fs with dirExists := true }
  match fs1.metaFile with
  | some _ => fs1
  | none => { fs1 with metaFile := some (MetaFile.valid (initialMetadata cfg)) }

/-- Reading and parsing the index file (`JSON.parse(await fs.readFile(...))`). -/
def readMetadata (fs : FS) : Except String Metadata :=
  match fs.metaFile with
  | some (.valid m) => .ok m
  | some .invalid => .error "Unexpected token in JSON"
  | none => .error "ENOENT: no such file or directory"

/-- Lookup of a file in the backup directory. -/
def lookupFile (files : List (String × StoredFile)) (k : String) : Option StoredFile :=
  match files with
  | [] => none
  | (k2, v) :: rest => if k2 == k then some v else lookupFile rest k

/-- Removal of a file (all occurrences of the key). -/
def removeFile (files : List (String × StoredFile)) (k : String) :
    List (String × StoredFile) :=
  files.filter (fun p => !(p.1 == k))

/-- Writing a file (overwrite semantics). -/
def setFile (files : List (String × StoredFile)) (k : String) (v : StoredFile) :
    List (String × StoredFile) :=
  (k, v) :: removeFile files k

/-- JSON form of a snapshot metadata record, in the key order the code writes. -/
def backupMetaJson (m : BackupMeta) : Json :=
  Json.obj [("name", .str m.name), ("timestamp", .str m.timestamp),
            ("reason", .str m.reason), ("checksum", .str m.checksum),
            ("flowsCount", .int m.flowsCount), ("nodesCount", .int m.nodesCount),
            ("size", .int m.size)]

/-- JSON form of a snapshot file body. -/
def backupDataJson (d : BackupData) : Json :=
  Json.obj [("metadata", backupMetaJson d.metadata), ("flows", d.flows)]

/-- The metadata record `createBackup` builds for a new snapshot. -/
def mkBackupMeta (bn ts : String) (reason : Option String) (a : Analysis) : BackupMeta :=
  { name := bn, timestamp := ts, reason := jsOrDefaultStr reason "Manual backup"
    checksum := a.checksum, flowsCount := a.flowsCount
    nodesCount := a.nodesCount, size := a.size }

/-- The index entry `createBackup` appends (metadata plus filename). -/
def mkBackupEntry (bn ts : String) (reason : Option String) (a : Analysis) : BackupEntry :=
  { name := bn, timestamp := ts, reason := jsOrDefaultStr reason "Manual backup"
    checksum := a.checksum, flowsCount := a.flowsCount
    nodesCount := a.nodesCount, size := a.size, filename := bn ++ ".json" }

/-- The archive ordering: `sort((a, b) => new Date(b.timestamp) - new
Date(a.timestamp))`, a stable sort descending by parsed timestamp.  A stable
sort under a total preorder has a unique result, so the engine sort is
modelled by insertion sort with the matching stable tie behavior. -/
def sortBackupsDesc (dateMs : String → Int) (l : List BackupEntry) : List BackupEntry :=
  List.insertionSort (fun a b => dateMs b.timestamp ≤ dateMs a.timestamp) l

/-- Best-effort deletion of the evicted backing files:
`for (...) { try { await fs.unlink(...) } catch {} }`. -/
def deleteFiles (unlinkFails : String → Bool) (files : List (String × StoredFile)) :
    List BackupEntry → List (String × StoredFile)
  | [] => files
  | b :: rest =>
      deleteFiles unlinkFails
        (if unlinkFails b.filename then files else removeFile files b.filename) rest

/-- Translation of `createBackup`.  The current flows (fetched from the
external API in the source) and the creation timestamp are inputs; the digest,
date parsing and unlink-failure oracles are parameters. -/
def createBackup (hash : String → String) (dateMs : String → Int)
    (unlinkFails : String → Bool) (name : Option String) (reason : Option String)
    (timestamp : String) (flows : Json) (cfg : BackupConfig) (fs : FS) :
    Except String BackupMeta × FS :=
  let fs := ensureBackupDirectory cfg fs
  match createBackupName name timestamp with
  | .error e => (.error e, fs)
  | .ok backupName =>
  match analyzeFlows hash flows with
  | .error e => (.error e, fs)
  | .ok analysis =>
  match readMetadata fs with
  | .error e => (.error e, fs)
  | .ok metadata =>
  if metadata.backups.any (fun b => b.name == backupName) then
    (.error ("Backup \x27" ++ backupName ++ "\x27 already exists"), fs)
  else
    let meta := mkBackupMeta backupName timestamp reason analysis
    let data : BackupData := { metadata := meta, flows := flows }
    let fs := { fs with
      files := setFile fs.files (backupName ++ ".json")
        (.decodable data (Json.stringify (backupDataJson data)).length) }
    let backups1 := metadata.backups ++ [mkBackupEntry backupName timestamp reason analysis]
    if metadata.config.autoCleanup && decide (backups1.length > metadata.config.maxBackups) then
      let sorted := sortBackupsDesc dateMs backups1
      let fs := { fs with
        files := deleteFiles unlinkFails fs.files (sorted.drop metadata.config.maxBackups) }
      (.ok meta,
        { fs with metaFile := some (.valid
            { metadata with backups := sorted.take metadata.config.maxBackups }) })
    else
      (.ok meta, { fs with metaFile := some (.valid { metadata with backups := backups1 }) })

/-- Translation of `getBackupFlows`: read and parse the snapshot file, verify
the stored checksum against a recomputed digest, surface a missing file as a
not-found error. -/
def getBackupFlows (hash : String → String) (backupName : String)
    (cfg : BackupConfig) (fs : FS) : Except String (BackupMeta × Json) × FS :=
  let fs := ensureBackupDirectory cfg fs
  match lookupFile fs.files (backupName ++ ".json") with
  | none => (.error ("Backup \x27" ++ backupName ++ "\x27 not found"), fs)
  | some (.undecodable _) => (.error "Unexpected token in JSON", fs)
  | some (.decodable d _) =>
      if hash (Json.stringify d.flows) != d.metadata.checksum then
        (.error "Backup file is corrupted: checksum mismatch", fs)
      else
        (.ok (d.metadata, d.flows), fs)

/-- The view of one index entry `listBackups` returns; the size and count
fields are absent unless `detailed` is set. -/
structure BackupView where
  name : String
  timestamp : String
  reason : String
  isLatest : Bool
  flowsCount : Option Nat
  nodesCount : Option Nat
  size : Option Nat
deriving DecidableEq

/-- Builder of one returned view. -/
def mkView (detailed : Bool) (latestFlag : Bool) (b : BackupEntry) : BackupView :=
  { name := b.name, timestamp := b.timestamp, reason := b.reason
    isLatest := latestFlag
    flowsCount := if detailed then some b.flowsCount else none
    nodesCount := if detailed then some b.nodesCount else none
    size := if detailed then some b.size else none }

/-- Index-aware map over the sorted entries (`map((backup, index) => ...)`). -/
def toViews (detailed : Bool) (i : Nat) : List BackupEntry → List BackupView
  | [] => []
  | b :: rest => mkView detailed (i == 0) b :: toViews detailed (i + 1) rest

/-- Translation of `listBackups`: sort the index entries descending by
timestamp and return views flagged with `isLatest` on the first. -/
def listBackups (dateMs : String → Int) (detailed : Bool) (cfg : BackupConfig)
    (fs : FS) : Except String (List BackupView) × FS :=
  let fs := ensureBackupDirectory cfg fs
  match readMetadata fs with
  | .error e => (.error e, fs)
  | .ok metadata =>
      (.ok (toViews detailed 0 (sortBackupsDesc dateMs metadata.backups)), fs)

/-- The health report `checkBackupHealth` builds (the storage-location string
is not modelled; paths are outside the claims). -/
structure Health where
  healthy : Bool
  count : Nat
  totalSize : Nat
  latestAge : Option Int
  issues : List String
deriving DecidableEq

/-- JavaScript `Math.round(num / den)` for a positive integer denominator:
floor of the quotient plus one half. -/
def jsRound (num den : Int) : Int :=
  Int.fdiv (2 * num + den) (2 * den)

/-- One iteration of the integrity loop in `checkBackupHealth`: a missing
file, an unparseable file, or a checksum mismatch counts as corrupted; the
stat size accumulates whenever stat succeeds (so also for unparseable files,
since stat runs before parse). -/
def scanStep (hash : String → String) (files : List (String × StoredFile))
    (acc : Nat × Nat) (b : BackupEntry) : Nat × Nat :=
  match lookupFile files b.filename with
  | none => (acc.1, acc.2 + 1)
  | some (.undecodable sz) => (acc.1 + sz, acc.2 + 1)
  | some (.decodable d sz) =>
      if hash (Json.stringify d.flows) != b.checksum then (acc.1 + sz, acc.2 + 1)
      else (acc.1 + sz, acc.2)

/-- Translation of `checkBackupHealth`.  `now` is `Date.now()` in
milliseconds.  The age of the newest entry is computed in minutes
(`/ (1000 * 60)`), the advisory condition `latestAge && latestAge > 24` keeps
the JavaScript truthiness test on the number, and the capacity advisory
`count >= maxBackups * 0.9` is rendered as `10 * count ≥ 9 * maxBackups`
(exact for the integer ranges in play). -/
def checkBackupHealth (hash : String → String) (dateMs : String → Int) (now : Int)
    (cfg : BackupConfig) (fs : FS) : Health × FS :=
  let fs := ensureBackupDirectory cfg fs
  match readMetadata fs with
  | .error _ =>
      ({ healthy := false, count := 0, totalSize := 0, latestAge := none
         issues := ["Backup system initialization failed, check path permissions"] }, fs)
  | .ok metadata =>
      let count := metadata.backups.length
      if count = 0 then
        ({ healthy := false, count := 0, totalSize := 0, latestAge := none
           issues := ["No backups found. Create your first backup immediately"] }, fs)
      else
        let scan := metadata.backups.foldl (scanStep hash fs.files) (0, 0)
        let latestAge : Option Int :=
          match (sortBackupsDesc dateMs metadata.backups).head? with
          | some latest => some (jsRound (now - dateMs latest.timestamp) 60000)
          | none => none
        let ageFlag :=
          match latestAge with
          | some age => decide (age ≠ 0) && decide (age > 24)
          | none => false
        let issues :=
          (if scan.2 > 0 then ["Found " ++ toString scan.2 ++ " corrupted backup(s)"] else []) ++
          (if ageFlag then
            ["Latest backup is over 24 hours old. Consider creating a new backup"] else []) ++
          (if 10 * count ≥ 9 * metadata.config.maxBackups then
            ["Backup count approaching limit (" ++ toString count ++ "/" ++
              toString metadata.config.maxBackups ++ ")"] else []) ++
          (if scan.1 > 100 * 1024 * 1024 then
            ["Backup files are using significant disk space. Consider cleanup"] else [])
        ({ healthy := scan.2 == 0, count := count, totalSize := scan.1
           latestAge := latestAge, issues := issues }, fs)

/-! ### Basic state lemmas -/

theorem ensure_files (cfg : BackupConfig) (fs : FS) :
    (ensureBackupDirectory cfg fs).files = fs.files := by
  unfold ensureBackupDirectory
  cases fs.metaFile <;> rfl

theorem ensure_dirExists (cfg : BackupConfig) (fs : FS) :
    (ensureBackupDirectory cfg fs).dirExists = true := by
  unfold ensureBackupDirectory
  cases fs.metaFile <;> rfl

theorem ensure_metaFile (cfg : BackupConfig) (fs : FS) :
    (ensureBackupDirectory cfg fs).metaFile =
      some (fs.metaFile.getD (MetaFile.valid (initialMetadata cfg))) := by
  unfold ensureBackupDirectory
  cases fs.metaFile <;> rfl

theorem ensure_idem (cfg : BackupConfig) (fs : FS) :
    ensureBackupDirectory cfg (ensureBackupDirectory cfg fs) = ensureBackupDirectory cfg fs := by
  unfold ensureBackupDirectory
  cases fs.metaFile <;> rfl

theorem ensure_of_some (cfg : BackupConfig) (fs : FS) (mf : MetaFile)
    (hm : fs.metaFile = some mf) :
    ensureBackupDirectory cfg fs = { fs with dirExists := true } := by
  unfold ensureBackupDirectory
  rw [hm]

/-! ### C1: verification succeeds on an unmodified payload -/

/-- C1.  For every payload that is a valid flows array, recomputing the
digest over the same canonical serialization reproduces the checksum that
`analyzeFlows` computed, so verification succeeds:
`verify(P, analyze(P).checksum) = true`. -/
theorem verify_analyze_roundtrip (hash : String → String) (elems : List Json)
    (a : Analysis) (h : analyzeFlows hash (Json.arr elems) = Except.ok a) :
    verifyFlows hash (Json.arr elems) a.checksum = true := by
  simp only [analyzeFlows] at h
  injection h with h
  subst h
  simp [verifyFlows]

/-- Concrete analysis record for the C1 witness. -/
def c1Analysis : Analysis :=
  { checksum := "h", flowsCount := 0, nodesCount := 0
    size := (Json.stringify (Json.arr [])).length }

/-- Witness for C1 at the empty payload and a concrete digest function. -/
theorem verify_analyze_roundtrip_witness :
    analyzeFlows (fun _ => "h") (Json.arr []) = Except.ok c1Analysis ∧
    verifyFlows (fun _ => "h") (Json.arr []) c1Analysis.checksum = true :=
  ⟨rfl, verify_analyze_roundtrip (fun _ => "h") [] c1Analysis rfl⟩

/-! ### C9: the read-only operations do not write -/

/-- C9.  `listBackups`, `getBackupFlows` and `checkBackupHealth` leave the
filesystem exactly as `ensureBackupDirectory` leaves it, and the latter only
performs the lazy idempotent first-use initialization: it never touches the
snapshot files, creates the directory, keeps an existing index file untouched
and writes a fresh empty index only when none exists.  Only `createBackup`
writes anything else. -/
theorem readonly_ops_frame (hash : String → String) (dateMs : String → Int)
    (now : Int) (detailed : Bool) (bn : String) (cfg : BackupConfig) (fs : FS) :
    (listBackups dateMs detailed cfg fs).2 = ensureBackupDirectory cfg fs ∧
    (getBackupFlows hash bn cfg fs).2 = ensureBackupDirectory cfg fs ∧
    (checkBackupHealth hash dateMs now cfg fs).2 = ensureBackupDirectory cfg fs ∧
    (ensureBackupDirectory cfg fs).files = fs.files ∧
    (ensureBackupDirectory cfg fs).dirExists = true ∧
    (ensureBackupDirectory cfg fs).metaFile =
      some (fs.metaFile.getD (MetaFile.valid (initialMetadata cfg))) ∧
    ensureBackupDirectory cfg (ensureBackupDirectory cfg fs) = ensureBackupDirectory cfg fs := by
  refine ⟨?_, ?_, ?_, ensure_files cfg fs, ensure_dirExists cfg fs,
    ensure_metaFile cfg fs, ensure_idem cfg fs⟩
  · simp only [listBackups]
    split <;> rfl
  · simp only [getBackupFlows]
    split
    · rfl
    · rfl
    · split <;> rfl
  · simp only [checkBackupHealth]
    split
    · rfl
    · split <;> rfl

/-! ### C5: the analyze counting rules -/

/-- Whether a JSON value is an array (`Array.isArray`). -/
def isJsonArray (j : Json) : Bool :=
  match j with
  | .arr _ => true
  | _ => false

/-- Spec-side count of tab elements: elements whose `type` equals the tab
discriminator. -/
def specFlowsCount (elems : List Json) : Nat :=
  elems.countP isTabElem

/-- Count following the literal spec wording for `nodesCount`: elements whose
`type` field is present and differs from the tab and subflow discriminators
(presence alone, no truthiness condition). -/
def specNodesCountPresent (elems : List Json) : Nat :=
  (elems.filter (fun f =>
    match typeField f with
    | some t => strictNeStr t "tab" && strictNeStr t "subflow"
    | none => false)).length

/-- Spec-side count for the amended `nodesCount` rule: elements whose `type`
field is present, truthy, and differs from the tab and subflow
discriminators. -/
def specNodesCountTruthy (elems : List Json) : Nat :=
  elems.countP isNodeElem

/-- Analysis record returned on the C5 counterexample payload. -/
def c5Analysis : Analysis :=
  { checksum := "h", flowsCount := 0, nodesCount := 0
    size := (Json.stringify (Json.arr [Json.obj [("type", Json.str "")]])).length }

/-- Counterexample to C5 as stated: for the one-element payload whose element
carries the present but empty-string `type`, the code counts zero nodes (the
truthiness test `f.type &&` rejects the empty string), while the stated rule
(`type` present and different from both discriminators) counts one. -/
theorem analyzeFlows_nodesCount_cex :
    analyzeFlows (fun _ => "h") (Json.arr [Json.obj [("type", Json.str "")]]) =
      Except.ok c5Analysis ∧
    c5Analysis.nodesCount = 0 ∧
    specNodesCountPresent [Json.obj [("type", Json.str "")]] = 1 :=
  ⟨rfl, rfl, rfl⟩

/-- C5 (amended).  On every array payload, `analyzeFlows` returns the digest
of the canonical serialization, the tab count, the count of elements with a
present, truthy, non-tab, non-subflow `type`, and the serialized length; on
every non-array payload it fails with the invalid-payload error. -/
theorem analyzeFlows_spec (hash : String → String) (j : Json) :
    (∀ elems, j = Json.arr elems →
      analyzeFlows hash j = Except.ok
        { checksum := hash (Json.stringify j)
          flowsCount := specFlowsCount elems
          nodesCount := specNodesCountTruthy elems
          size := (Json.stringify j).length }) ∧
    (isJsonArray j = false →
      analyzeFlows hash j = Except.error "flows.json does not contain a valid flows array") := by
  constructor
  · rintro elems rfl
    simp [analyzeFlows, specFlowsCount, specNodesCountTruthy,
      List.countP_eq_length_filter]
  · intro h
    cases j <;> simp_all [isJsonArray, analyzeFlows]

/-- Witness for C5 on a one-tab payload and on a non-array payload. -/
theorem analyzeFlows_spec_witness :
    analyzeFlows (fun _ => "h") (Json.arr [Json.obj [("type", Json.str "tab")]]) =
      Except.ok
        { checksum := "h"
          flowsCount := specFlowsCount [Json.obj [("type", Json.str "tab")]]
          nodesCount := specNodesCountTruthy [Json.obj [("type", Json.str "tab")]]
          size := (Json.stringify (Json.arr [Json.obj [("type", Json.str "tab")]])).length } ∧
    analyzeFlows (fun _ => "h") (Json.str "x") =
      Except.error "flows.json does not contain a valid flows array" :=
  ⟨(analyzeFlows_spec (fun _ => "h") (Json.arr [Json.obj [("type", Json.str "tab")]])).1 _ rfl,
   (analyzeFlows_spec (fun _ => "h") (Json.str "x")).2 rfl⟩

/-! ### C6: the staleness advisory threshold -/

/-- Default runtime configuration used by concrete scenarios. -/
def cfg0 : BackupConfig := { maxBackups := none, autoCleanup := none }

/-- Index entry of the C6 scenario: one backup created at the instant the
date oracle maps to 0 ms. -/
def entry6 : BackupEntry :=
  { name := "a", timestamp := "2026-01-01T00:00:00.000Z", reason := "r"
    checksum := "h", flowsCount := 0, nodesCount := 0, size := 2
    filename := "a.json" }

/-- Filesystem of the C6 scenario: a healthy archive with one intact backup
(its stored checksum matches the recomputed digest). -/
def fs6 : FS :=
  { dirExists := true
    metaFile := some (.valid
      { version := "1.0"
        config := { maxBackups := 10, autoCleanup := true }
        backups := [entry6] })
    files := [("a.json",
      .decodable
        { metadata := { name := "a", timestamp := "2026-01-01T00:00:00.000Z", reason := "r"
                        checksum := "h", flowsCount := 0, nodesCount := 0, size := 2 }
          flows := Json.arr [] } 100)] }

/-- C6 failing input: the newest (and only) entry is 25 minutes old
(`now` is 1500000 ms past the entry timestamp), far younger than 24 hours,
yet `checkBackupHealth` emits the staleness advisory, because the code
computes the age in minutes (`/(1000*60)`) and compares it against 24 while
its message speaks of 24 hours.  The report stays healthy, confirming that
the advisory alone never clears the healthy flag. -/
theorem health_stale_advisory_minutes_bug :
    (checkBackupHealth (fun _ => "h") (fun _ => 0) 1500000 cfg0 fs6).1 =
      { healthy := true, count := 1, totalSize := 100, latestAge := some 25
        issues := ["Latest backup is over 24 hours old. Consider creating a new backup"] } := by
  rfl

/-! ### C7: validation of supplied names -/

/-- Empty filesystem before any backup activity. -/
def fs0 : FS := { dirExists := false, metaFile := none, files := [] }

/-- Counterexample to C7 as stated: the explicitly supplied name `""` does
not match the `[a-zA-Z0-9_-]{1,50}` pattern, yet `createBackup` does not fail
with an invalid-name error — the JavaScript truthiness test `if (name)`
treats the empty string as absent and auto-generates a name instead. -/
theorem createBackup_emptyName_cex :
    matchesNamePattern "" = false ∧
    (createBackup (fun _ => "h") (fun _ => 0) (fun _ => false) (some "") none
        "2026-01-02T03:04:05.678Z" (Json.arr []) cfg0 fs0).1 =
      Except.ok
        { name := "backup_20260102_030405", timestamp := "2026-01-02T03:04:05.678Z"
          reason := "Manual backup", checksum := "h", flowsCount := 0, nodesCount := 0
          size := (Json.stringify (Json.arr [])).length } :=
  ⟨rfl, rfl⟩

/-- C7 (amended).  For every supplied non-empty name, creation fails with the
invalid-name error when the name does not match the pattern, and with the
reserved-name error when it matches the pattern but equals a reserved word
case-insensitively; in both cases the filesystem is left exactly as the lazy
initialization leaves it — no snapshot file and no index entry is written.
(A supplied empty-string name is instead treated as absent and
auto-generated.) -/
theorem createBackup_invalidName (hash : String → String) (dateMs : String → Int)
    (unlinkFails : String → Bool) (n : String) (reason : Option String)
    (ts : String) (flows : Json) (cfg : BackupConfig) (fs : FS)
    (hn : n ≠ "")
    (hbad : matchesNamePattern n = false ∨ isReservedName n = true) :
    createBackup hash dateMs unlinkFails (some n) reason ts flows cfg fs =
      (Except.error (if matchesNamePattern n
          then "\x27" ++ n ++ "\x27 is a reserved name"
          else "Backup name must be 1-50 characters, letters/numbers/underscores/hyphens only"),
        ensureBackupDirectory cfg fs) ∧
    (ensureBackupDirectory cfg fs).files = fs.files := by
  refine ⟨?_, ensure_files cfg fs⟩
  rcases hbad with hbad | hbad
  · simp [createBackup, createBackupName, hn, hbad]
  · cases hp : matchesNamePattern n with
    | true => simp [createBackup, createBackupName, hn, hp, hbad]
    | false => simp [createBackup, createBackupName, hn, hp]

/-- Witness for C7 at the reserved name `Latest` (the spec example). -/
theorem createBackup_invalidName_witness :
    ("Latest" ≠ "" ∧ isReservedName "Latest" = true) ∧
    (createBackup (fun _ => "h") (fun _ => 0) (fun _ => false) (some "Latest") none
        "2026-01-02T03:04:05.678Z" (Json.arr []) cfg0 fs0 =
      (Except.error (if matchesNamePattern "Latest"
          then "\x27Latest\x27 is a reserved name"
          else "Backup name must be 1-50 characters, letters/numbers/underscores/hyphens only"),
        ensureBackupDirectory cfg0 fs0) ∧
      (ensureBackupDirectory cfg0 fs0).files = fs0.files) :=
  ⟨⟨by decide, by decide⟩,
   createBackup_invalidName (fun _ => "h") (fun _ => 0) (fun _ => false) "Latest" none
     "2026-01-02T03:04:05.678Z" (Json.arr []) cfg0 fs0 (by decide) (Or.inr (by decide))⟩

/-! ### Sorting and view lemmas -/

theorem sortBackupsDesc_perm (dateMs : String → Int) (l : List BackupEntry) :
    (sortBackupsDesc dateMs l).Perm l :=
  List.perm_insertionSort _ l

theorem sortBackupsDesc_length (dateMs : String → Int) (l : List BackupEntry) :
    (sortBackupsDesc dateMs l).length = l.length :=
  (sortBackupsDesc_perm dateMs l).length_eq

theorem sortBackupsDesc_sorted (dateMs : String → Int) (l : List BackupEntry) :
    List.Pairwise (fun a b => dateMs b.timestamp ≤ dateMs a.timestamp)
      (sortBackupsDesc dateMs l) := by
  haveI : IsTotal BackupEntry (fun a b => dateMs b.timestamp ≤ dateMs a.timestamp) :=
    ⟨fun a b => le_total (dateMs b.timestamp) (dateMs a.timestamp)⟩
  haveI : IsTrans BackupEntry (fun a b => dateMs b.timestamp ≤ dateMs a.timestamp) :=
    ⟨fun _ _ _ hab hbc => le_trans hbc hab⟩
  exact List.sorted_insertionSort _ l

theorem sortBackupsDesc_take_drop (dateMs : String → Int) (l : List BackupEntry) (k : Nat) :
    ∀ e ∈ (sortBackupsDesc dateMs l).drop k, ∀ r ∈ (sortBackupsDesc dateMs l).take k,
      dateMs e.timestamp ≤ dateMs r.timestamp := by
  have hs := sortBackupsDesc_sorted dateMs l
  rw [← List.take_append_drop k (sortBackupsDesc dateMs l), List.pairwise_append] at hs
  exact fun e he r hr => hs.2.2 r hr e he

theorem toViews_map_name (detailed : Bool) (i : Nat) (l : List BackupEntry) :
    (toViews detailed i l).map (fun v => v.name) = l.map (fun b => b.name) := by
  induction l generalizing i with
  | nil => rfl
  | cons b rest ih => simp [toViews, mkView, ih]

theorem toViews_map_timestamp (detailed : Bool) (i : Nat) (l : List BackupEntry) :
    (toViews detailed i l).map (fun v => v.timestamp) = l.map (fun b => b.timestamp) := by
  induction l generalizing i with
  | nil => rfl
  | cons b rest ih => simp [toViews, mkView, ih]

theorem toViews_length (detailed : Bool) (i : Nat) (l : List BackupEntry) :
    (toViews detailed i l).length = l.length := by
  induction l generalizing i with
  | nil => rfl
  | cons b rest ih => simp [toViews, ih]

theorem toViews_get? (detailed : Bool) (i k : Nat) (l : List BackupEntry) :
    (toViews detailed i l).get? k = (l.get? k).map (mkView detailed ((i + k) == 0)) := by
  induction l generalizing i k with
  | nil => simp [toViews]
  | cons b rest ih =>
      cases k with
      | zero => simp [toViews]
      | succ k2 =>
          simp only [toViews, List.get?_cons_succ, ih (i + 1) k2]
          have : i + 1 + k2 = i + (k2 + 1) := by omega
          rw [this]

theorem mem_toViews (detailed : Bool) (i : Nat) (l : List BackupEntry) (v : BackupView)
    (hv : v ∈ toViews detailed i l) : ∃ e ∈ l, ∃ fl, v = mkView detailed fl e := by
  induction l generalizing i with
  | nil => simp [toViews] at hv
  | cons b rest ih =>
      simp only [toViews, List.mem_cons] at hv
      rcases hv with hv | hv
      · exact ⟨b, List.mem_cons_self b rest, _, hv⟩
      · obtain ⟨e, he, fl, hfl⟩ := ih (i + 1) hv
        exact ⟨e, List.mem_cons_of_mem b he, fl, hfl⟩

/-! ### C3 and C4: fetch/list on corruption, duplicate creation -/

theorem readMetadata_ensure (cfg : BackupConfig) (fs : FS) (m : Metadata)
    (hm : fs.metaFile = some (MetaFile.valid m)) :
    readMetadata (ensureBackupDirectory cfg fs) = Except.ok m := by
  rw [ensure_of_some cfg fs _ hm]
  simp [readMetadata, hm]

theorem pattern_ne_empty (n : String) (hpat : matchesNamePattern n = true) : n ≠ "" := by
  intro h
  subst h
  simp [matchesNamePattern] at hpat

/-- C3.  When the stored payload of a snapshot file has been altered while
the recorded checksum was kept (so the recomputed digest no longer matches),
`getBackupFlows` fails with the corruption error even though the file decodes
successfully, while `listBackups` over the same archive still succeeds and
still includes that entry, because it reads only the metadata index. -/
theorem corrupted_fetch_vs_list (hash : String → String) (dateMs : String → Int)
    (detailed : Bool) (cfg : BackupConfig) (fs : FS) (bn : String)
    (d : BackupData) (sz : Nat) (m : Metadata)
    (hfile : lookupFile fs.files (bn ++ ".json") = some (StoredFile.decodable d sz))
    (hbad : (hash (Json.stringify d.flows) == d.metadata.checksum) = false)
    (hm : fs.metaFile = some (MetaFile.valid m))
    (hmem : bn ∈ m.backups.map (fun b => b.name)) :
    (getBackupFlows hash bn cfg fs).1 =
      Except.error "Backup file is corrupted: checksum mismatch" ∧
    ∃ views, (listBackups dateMs detailed cfg fs).1 = Except.ok views ∧
      bn ∈ views.map (fun v => v.name) := by
  constructor
  · simp only [getBackupFlows, ensure_files, hfile, bne, hbad, Bool.not_false, if_pos]
  · refine ⟨toViews detailed 0 (sortBackupsDesc dateMs m.backups), ?_, ?_⟩
    · simp only [listBackups, readMetadata_ensure cfg fs m hm]
    · rw [toViews_map_name]
      exact (((sortBackupsDesc_perm dateMs m.backups).map _).mem_iff).mpr hmem

/-- Concrete corrupted snapshot for the C3 witness: the stored checksum is
`x` while the (constant) digest of the stored payload is `h`. -/
def fs3 : FS :=
  { dirExists := true
    metaFile := some (.valid
      { version := "1.0"
        config := { maxBackups := 10, autoCleanup := true }
        backups := [{ name := "a", timestamp := "2026-01-01T00:00:00.000Z", reason := "r"
                      checksum := "x", flowsCount := 0, nodesCount := 0, size := 2
                      filename := "a.json" }] })
    files := [("a.json",
      .decodable
        { metadata := { name := "a", timestamp := "2026-01-01T00:00:00.000Z", reason := "r"
                        checksum := "x", flowsCount := 0, nodesCount := 0, size := 2 }
          flows := Json.arr [Json.obj [("type", Json.str "tab")]] } 100)] }

/-- Witness for C3 at the concrete corrupted archive `fs3`. -/
theorem corrupted_fetch_vs_list_witness :
    (getBackupFlows (fun _ => "h") "a" cfg0 fs3).1 =
      Except.error "Backup file is corrupted: checksum mismatch" ∧
    ∃ views, (listBackups (fun _ => 0) true cfg0 fs3).1 = Except.ok views ∧
      "a" ∈ views.map (fun v => v.name) :=
  corrupted_fetch_vs_list (fun _ => "h") (fun _ => 0) true cfg0 fs3 "a" _ 100 _
    rfl rfl rfl (by simp)

/-- C4.  Creating a backup whose (valid, non-reserved) name is already
present in the index fails with the duplicate error, the filesystem keeps
every snapshot file and the index untouched (only the directory flag is
ensured), and fetching the existing backup afterwards returns exactly what it
returned before. -/
theorem createBackup_duplicate_name (hash : String → String) (dateMs : String → Int)
    (unlinkFails : String → Bool) (n : String) (reason : Option String)
    (ts : String) (elems : List Json) (cfg : BackupConfig) (fs : FS) (m : Metadata)
    (hpat : matchesNamePattern n = true) (hres : isReservedName n = false)
    (hm : fs.metaFile = some (MetaFile.valid m))
    (hdup : (m.backups.any fun b => b.name == n) = true) :
    createBackup hash dateMs unlinkFails (some n) reason ts (Json.arr elems) cfg fs =
      (Except.error ("Backup \x27" ++ n ++ "\x27 already exists"),
        { fs with dirExists := true }) ∧
    ({ fs with dirExists := true } : FS).files = fs.files ∧
    ({ fs with dirExists := true } : FS).metaFile = fs.metaFile ∧
    (getBackupFlows hash n cfg { fs with dirExists := true }).1 =
      (getBackupFlows hash n cfg fs).1 := by
  have hens : ensureBackupDirectory cfg fs = { fs with dirExists := true } :=
    ensure_of_some cfg fs _ hm
  have hens2 : ensureBackupDirectory cfg { fs with dirExists := true } =
      ensureBackupDirectory cfg fs := by
    rw [hens]
    unfold ensureBackupDirectory
    rw [hm]
  have hname : createBackupName (some n) ts = Except.ok n := by
    simp [createBackupName, pattern_ne_empty n hpat, hpat, hres]
  have hread : readMetadata ({ fs with dirExists := true } : FS) = Except.ok m := by
    simp [readMetadata, hm]
  refine ⟨?_, rfl, rfl, ?_⟩
  · simp only [createBackup, hens, hname, analyzeFlows, hread]
    simp [hdup]
  · simp only [getBackupFlows, hens2]

/-- Index document containing a backup named `daily` for the C4 witness. -/
def m4 : Metadata :=
  { version := "1.0"
    config := { maxBackups := 10, autoCleanup := true }
    backups := [{ name := "daily", timestamp := "2026-01-01T00:00:00.000Z", reason := "r"
                  checksum := "h", flowsCount := 0, nodesCount := 0, size := 2
                  filename := "daily.json" }] }

/-- Archive containing a backup named `daily` for the C4 witness. -/
def fs4 : FS :=
  { dirExists := true
    metaFile := some (.valid m4)
    files := [("daily.json",
      .decodable
        { metadata := { name := "daily", timestamp := "2026-01-01T00:00:00.000Z", reason := "r"
                        checksum := "h", flowsCount := 0, nodesCount := 0, size := 2 }
          flows := Json.arr [] } 100)] }

/-- Witness for C4: creating `daily` a second time over `fs4`. -/
theorem createBackup_duplicate_name_witness :
    (matchesNamePattern "daily" = true ∧ isReservedName "daily" = false ∧
      (m4.backups.any fun b => b.name == "daily") = true ∧
      fs4.metaFile = some (MetaFile.valid m4)) ∧
    (createBackup (fun _ => "h") (fun _ => 0) (fun _ => false) (some "daily") none
        "2026-01-02T00:00:00.000Z" (Json.arr []) cfg0 fs4 =
      (Except.error ("Backup \x27daily\x27 already exists"),
        { fs4 with dirExists := true }) ∧
      ({ fs4 with dirExists := true } : FS).files = fs4.files ∧
      ({ fs4 with dirExists := true } : FS).metaFile = fs4.metaFile ∧
      (getBackupFlows (fun _ => "h") "daily" cfg0 { fs4 with dirExists := true }).1 =
        (getBackupFlows (fun _ => "h") "daily" cfg0 fs4).1) :=
  ⟨⟨by decide, by decide, by decide, rfl⟩,
   createBackup_duplicate_name (fun _ => "h") (fun _ => 0) (fun _ => false) "daily" none
     "2026-01-02T00:00:00.000Z" [] cfg0 fs4 m4 (by decide) (by decide) rfl (by decide)⟩

/-! ### C8: list ordering and views -/

/-- C8 (amended).  `listBackups` returns one view per index entry, sorted in
descending (non-increasing) timestamp order — strictly descending whenever
the entry timestamps are pairwise distinct — with exactly the first returned
view flagged `isLatest`; the size and count fields are included exactly when
`detailed` is set, while the stored index document keeps all fields
regardless (the final state only gains the directory flag). -/
theorem listBackups_spec (dateMs : String → Int) (detailed : Bool)
    (cfg : BackupConfig) (fs : FS) (m : Metadata)
    (hm : fs.metaFile = some (MetaFile.valid m)) :
    ∃ views,
      listBackups dateMs detailed cfg fs = (Except.ok views, { fs with dirExists := true }) ∧
      views.length = m.backups.length ∧
      List.Pairwise (fun a b => dateMs b.timestamp ≤ dateMs a.timestamp) views ∧
      (∀ k v, views.get? k = some v → v.isLatest = (k == 0)) ∧
      (∀ v ∈ views, ∃ e, e ∈ m.backups ∧ v.name = e.name ∧ v.timestamp = e.timestamp ∧
        v.reason = e.reason ∧
        v.flowsCount = (if detailed then some e.flowsCount else none) ∧
        v.nodesCount = (if detailed then some e.nodesCount else none) ∧
        v.size = (if detailed then some e.size else none)) ∧
      (m.backups.Pairwise (fun a b => dateMs a.timestamp ≠ dateMs b.timestamp) →
        List.Pairwise (fun a b => dateMs b.timestamp < dateMs a.timestamp) views) := by
  have hread : readMetadata ({ fs with dirExists := true } : FS) = Except.ok m := by
    simp [readMetadata, hm]
  refine ⟨toViews detailed 0 (sortBackupsDesc dateMs m.backups), ?_, ?_, ?_, ?_, ?_, ?_⟩
  · simp only [listBackups, ensure_of_some cfg fs _ hm, hread]
  · rw [toViews_length, sortBackupsDesc_length]
  · have h := sortBackupsDesc_sorted dateMs m.backups
    have hmap := toViews_map_timestamp detailed 0 (sortBackupsDesc dateMs m.backups)
    rw [← List.pairwise_map (f := fun v : BackupView => v.timestamp)
      (R := fun a b => dateMs b ≤ dateMs a), hmap, List.pairwise_map]
    exact h
  · intro k v hkv
    rw [toViews_get?] at hkv
    rcases he : (sortBackupsDesc dateMs m.backups).get? k with _ | e <;> rw [he] at hkv
    · exact absurd hkv (by simp)
    · simp only [Option.map_some'] at hkv
      injection hkv with hkv
      rw [← hkv]
      simp [mkView]
  · intro v hv
    obtain ⟨e, he, fl, hfl⟩ := mem_toViews detailed 0 _ v hv
    refine ⟨e, ((sortBackupsDesc_perm dateMs m.backups).mem_iff).mp he, ?_⟩
    subst hfl
    simp [mkView]
  · intro hdistinct
    have hsorted := sortBackupsDesc_sorted dateMs m.backups
    have hdr : (sortBackupsDesc dateMs m.backups).Pairwise
        (fun a b => dateMs a.timestamp ≠ dateMs b.timestamp) :=
      ((sortBackupsDesc_perm dateMs m.backups).pairwise_iff (fun h => Ne.symm h)).mpr hdistinct
    have hstrict : (sortBackupsDesc dateMs m.backups).Pairwise
        (fun a b => dateMs b.timestamp < dateMs a.timestamp) :=
      (hsorted.and hdr).imp (fun h => lt_of_le_of_ne h.1 h.2.symm)
    have hmap := toViews_map_timestamp detailed 0 (sortBackupsDesc dateMs m.backups)
    rw [← List.pairwise_map (f := fun v : BackupView => v.timestamp)
      (R := fun a b => dateMs b < dateMs a), hmap, List.pairwise_map]
    exact hstrict

/-- Date oracle mapping every timestamp to the same instant (the two entries
below carry the identical timestamp string, so every parser agrees). -/
def dmZero : String → Int := fun _ => 0

/-- First entry of the equal-timestamp archive. -/
def eD1 : BackupEntry :=
  { name := "a", timestamp := "2026-01-01T00:00:00.000Z", reason := "r"
    checksum := "h", flowsCount := 0, nodesCount := 0, size := 2, filename := "a.json" }

/-- Second entry of the equal-timestamp archive: same timestamp, other name
(reachable by two creates within the same millisecond under distinct names). -/
def eD2 : BackupEntry :=
  { name := "b", timestamp := "2026-01-01T00:00:00.000Z", reason := "r"
    checksum := "h", flowsCount := 0, nodesCount := 0, size := 2, filename := "b.json" }

/-- Archive whose two entries share one timestamp. -/
def fsDup : FS :=
  { dirExists := true
    metaFile := some (.valid
      { version := "1.0"
        config := { maxBackups := 10, autoCleanup := true }
        backups := [eD1, eD2] })
    files := [] }

/-- Counterexample to C8 as stated: on an archive with two entries sharing a
timestamp, the returned order cannot be strictly descending — the two views
carry equal timestamps, so only the non-strict (descending) ordering holds. -/
theorem listBackups_strict_cex :
    (listBackups dmZero true cfg0 fsDup).1 =
      Except.ok [mkView true true eD1, mkView true false eD2] ∧
    eD1.timestamp = eD2.timestamp ∧
    ¬ List.Pairwise (fun a b : BackupView => dmZero b.timestamp < dmZero a.timestamp)
      [mkView true true eD1, mkView true false eD2] :=
  ⟨rfl, rfl, by decide⟩

/-- Witness for C8 at the concrete archive `fs4` (one entry, no details). -/
theorem listBackups_spec_witness :
    fs4.metaFile = some (MetaFile.valid m4) ∧
    (∃ views,
      listBackups (fun _ => 0) false cfg0 fs4 =
        (Except.ok views, { fs4 with dirExists := true }) ∧
      views.length = m4.backups.length ∧
      List.Pairwise (fun a b => (fun _ : String => (0 : Int)) b.timestamp ≤
        (fun _ : String => (0 : Int)) a.timestamp) views ∧
      (∀ k v, views.get? k = some v → v.isLatest = (k == 0)) ∧
      (∀ v ∈ views, ∃ e, e ∈ m4.backups ∧ v.name = e.name ∧ v.timestamp = e.timestamp ∧
        v.reason = e.reason ∧
        v.flowsCount = (if false then some e.flowsCount else none) ∧
        v.nodesCount = (if false then some e.nodesCount else none) ∧
        v.size = (if false then some e.size else none)) ∧
      (m4.backups.Pairwise (fun a b => (fun _ : String => (0 : Int)) a.timestamp ≠
          (fun _ : String => (0 : Int)) b.timestamp) →
        List.Pairwise (fun a b => (fun _ : String => (0 : Int)) b.timestamp <
          (fun _ : String => (0 : Int)) a.timestamp) views)) :=
  ⟨rfl, listBackups_spec (fun _ => 0) false cfg0 fs4 m4 rfl⟩

/-! ### C2: capacity invariant on create with auto-cleanup -/

theorem lookupFile_removeFile_self (files : List (String × StoredFile)) (k : String) :
    lookupFile (removeFile files k) k = none := by
  induction files with
  | nil => rfl
  | cons p rest ih =>
      by_cases h : p.1 == k
      · simpa [removeFile, h] using ih
      · simpa [removeFile, List.filter_cons, h, lookupFile] using ih

theorem lookupFile_none_removeFile (files : List (String × StoredFile)) (k k2 : String)
    (h : lookupFile files k = none) : lookupFile (removeFile files k2) k = none := by
  induction files with
  | nil => rfl
  | cons p rest ih =>
      simp only [lookupFile] at h
      rcases hpk : (p.1 == k) with _ | _
      · rw [hpk] at h
        simp only [Bool.false_eq_true, if_false] at h
        by_cases h2 : p.1 == k2
        · simpa [removeFile, h2] using ih h
        · simpa [removeFile, List.filter_cons, h2, lookupFile, hpk] using ih h
      · rw [hpk] at h
        simp at h

theorem lookupFile_none_deleteFiles (uf : String → Bool) (l : List BackupEntry)
    (files : List (String × StoredFile)) (k : String)
    (h : lookupFile files k = none) :
    lookupFile (deleteFiles uf files l) k = none := by
  induction l generalizing files with
  | nil => exact h
  | cons b rest ih =>
      simp only [deleteFiles]
      by_cases hb : uf b.filename
      · simpa [hb] using ih files h
      · simpa [hb] using ih _ (lookupFile_none_removeFile files k b.filename h)

theorem deleteFiles_mem_none (uf : String → Bool) (huf : ∀ f, uf f = false)
    (l : List BackupEntry) (files : List (String × StoredFile)) (e : BackupEntry)
    (he : e ∈ l) :
    lookupFile (deleteFiles uf files l) e.filename = none := by
  induction l generalizing files with
  | nil => simp at he
  | cons b rest ih =>
      simp only [deleteFiles, huf b.filename, Bool.false_eq_true, if_false]
      rcases List.mem_cons.mp he with he | he
      · subst he
        exact lookupFile_none_deleteFiles uf rest _ e.filename
          (lookupFile_removeFile_self files e.filename)
      · exact ih (removeFile files b.filename) he

/-- C2.  With auto-cleanup enabled in the index, every successful create
leaves at most `maxBackups` entries in the index.  When the append exceeds
capacity, the retained entries are exactly the first `maxBackups` of the
stable descending-by-timestamp ordering of old entries plus the new one — so
every evicted entry is no newer than every retained entry — and the create
and its index update succeed for every unlink-failure oracle (a failed
best-effort deletion aborts nothing); when all deletions succeed the evicted
backing files are gone. -/
theorem createBackup_capacity_invariant (hash : String → String) (dateMs : String → Int)
    (name : Option String) (reason : Option String) (ts : String) (flows : Json)
    (cfg : BackupConfig) (fs : FS) (m : Metadata) (bn : String) (a : Analysis)
    (hm : fs.metaFile = some (MetaFile.valid m))
    (hclean : m.config.autoCleanup = true)
    (hname : createBackupName name ts = Except.ok bn)
    (ha : analyzeFlows hash flows = Except.ok a)
    (hdup : (m.backups.any fun b => b.name == bn) = false) :
    ∀ unlinkFails, ∃ fs1,
      createBackup hash dateMs unlinkFails name reason ts flows cfg fs =
        (Except.ok (mkBackupMeta bn ts reason a), fs1) ∧
      ∃ backups1,
        fs1.metaFile = some (MetaFile.valid { m with backups := backups1 }) ∧
        backups1.length ≤ m.config.maxBackups ∧
        (m.backups.length + 1 ≤ m.config.maxBackups →
          backups1 = m.backups ++ [mkBackupEntry bn ts reason a]) ∧
        (m.config.maxBackups < m.backups.length + 1 →
          backups1 =
            (sortBackupsDesc dateMs (m.backups ++ [mkBackupEntry bn ts reason a])).take
              m.config.maxBackups ∧
          backups1.length = m.config.maxBackups ∧
          (sortBackupsDesc dateMs (m.backups ++ [mkBackupEntry bn ts reason a])).Perm
            (m.backups ++ [mkBackupEntry bn ts reason a]) ∧
          (∀ e ∈ (sortBackupsDesc dateMs
              (m.backups ++ [mkBackupEntry bn ts reason a])).drop m.config.maxBackups,
            (∀ r ∈ backups1, dateMs e.timestamp ≤ dateMs r.timestamp) ∧
            ((∀ f, unlinkFails f = false) → lookupFile fs1.files e.filename = none))) := by
  intro unlinkFails
  have hens : ensureBackupDirectory cfg fs = { fs with dirExists := true } :=
    ensure_of_some cfg fs _ hm
  have hread : readMetadata ({ fs with dirExists := true } : FS) = Except.ok m := by
    simp [readMetadata, hm]
  have hlen1 : (m.backups ++ [mkBackupEntry bn ts reason a]).length = m.backups.length + 1 := by
    simp
  have hslen : (sortBackupsDesc dateMs (m.backups ++ [mkBackupEntry bn ts reason a])).length =
      m.backups.length + 1 := by
    rw [sortBackupsDesc_length, hlen1]
  by_cases hgt : m.config.maxBackups < m.backups.length + 1
  · have hcond : (m.config.autoCleanup &&
        decide ((m.backups ++ [mkBackupEntry bn ts reason a]).length > m.config.maxBackups)) =
        true := by
      simp [hclean, hlen1]
      omega
    simp only [createBackup, hens, hname, ha, hread, hdup, Bool.false_eq_true, if_false,
      hcond, if_true]
    refine ⟨_, rfl, ?_⟩
    refine ⟨(sortBackupsDesc dateMs (m.backups ++ [mkBackupEntry bn ts reason a])).take
        m.config.maxBackups, rfl, ?_, ?_, ?_⟩
    · rw [List.length_take]
      omega
    · intro h
      omega
    · intro _
      refine ⟨rfl, ?_, sortBackupsDesc_perm dateMs _, ?_⟩
      · rw [List.length_take]
        omega
      · intro e he
        refine ⟨fun r hr => sortBackupsDesc_take_drop dateMs _ _ e he r hr, fun huf => ?_⟩
        exact deleteFiles_mem_none unlinkFails huf _ _ e he
  · have hcond : (m.config.autoCleanup &&
        decide ((m.backups ++ [mkBackupEntry bn ts reason a]).length > m.config.maxBackups)) =
        false := by
      simp [hlen1]
      omega
    simp only [createBackup, hens, hname, ha, hread, hdup, Bool.false_eq_true, if_false,
      hcond]
    refine ⟨_, rfl, ?_⟩
    refine ⟨m.backups ++ [mkBackupEntry bn ts reason a], rfl, ?_, fun _ => rfl, ?_⟩
    · rw [hlen1]
      omega
    · intro h
      omega

/-- Index with capacity 1 holding one entry, for the C2 witness. -/
def m2 : Metadata :=
  { version := "1.0"
    config := { maxBackups := 1, autoCleanup := true }
    backups := [{ name := "alpha", timestamp := "2026-01-01T00:00:00.000Z", reason := "r"
                  checksum := "h", flowsCount := 0, nodesCount := 0, size := 2
                  filename := "alpha.json" }] }

/-- Filesystem for the C2 witness. -/
def fs2 : FS :=
  { dirExists := true, metaFile := some (.valid m2)
    files := [("alpha.json", .undecodable 7)] }

/-- Date oracle for the C2 witness: the old entry parses older than the new. -/
def dm2 : String → Int :=
  fun s => if s == "2026-01-01T00:00:00.000Z" then 100 else 200

/-- Witness for C2: creating `beta` over the full one-slot archive `fs2`. -/
theorem createBackup_capacity_invariant_witness :
    (fs2.metaFile = some (MetaFile.valid m2) ∧ m2.config.autoCleanup = true ∧
     createBackupName (some "beta") "2026-01-02T00:00:00.000Z" = Except.ok "beta" ∧
     analyzeFlows (fun _ => "h") (Json.arr []) = Except.ok c1Analysis ∧
     (m2.backups.any fun b => b.name == "beta") = false) ∧
    (∃ fs1,
      createBackup (fun _ => "h") dm2 (fun _ => false) (some "beta") none
          "2026-01-02T00:00:00.000Z" (Json.arr []) cfg0 fs2 =
        (Except.ok (mkBackupMeta "beta" "2026-01-02T00:00:00.000Z" none c1Analysis), fs1) ∧
      ∃ backups1,
        fs1.metaFile = some (MetaFile.valid { m2 with backups := backups1 }) ∧
        backups1.length ≤ m2.config.maxBackups ∧
        (m2.backups.length + 1 ≤ m2.config.maxBackups →
          backups1 = m2.backups ++
            [mkBackupEntry "beta" "2026-01-02T00:00:00.000Z" none c1Analysis]) ∧
        (m2.config.maxBackups < m2.backups.length + 1 →
          backups1 =
            (sortBackupsDesc dm2 (m2.backups ++
              [mkBackupEntry "beta" "2026-01-02T00:00:00.000Z" none c1Analysis])).take
              m2.config.maxBackups ∧
          backups1.length = m2.config.maxBackups ∧
          (sortBackupsDesc dm2 (m2.backups ++
            [mkBackupEntry "beta" "2026-01-02T00:00:00.000Z" none c1Analysis])).Perm
            (m2.backups ++ [mkBackupEntry "beta" "2026-01-02T00:00:00.000Z" none c1Analysis]) ∧
          (∀ e ∈ (sortBackupsDesc dm2 (m2.backups ++
              [mkBackupEntry "beta" "2026-01-02T00:00:00.000Z" none c1Analysis])).drop
              m2.config.maxBackups,
            (∀ r ∈ backups1, dm2 e.timestamp ≤ dm2 r.timestamp) ∧
            ((∀ f, (fun _ : String => false) f = false) →
              lookupFile fs1.files e.filename = none)))) :=
  ⟨⟨rfl, rfl, rfl, rfl, by decide⟩,
   createBackup_capacity_invariant (fun _ => "h") dm2 (some "beta") none
     "2026-01-02T00:00:00.000Z" (Json.arr []) cfg0 fs2 m2 "beta" c1Analysis
     rfl rfl rfl rfl (by decide) (fun _ => false)⟩

/-! ### C10: the auto-generated name -/

/-- ASCII digit test. -/
def digitChar (c : Char) : Bool :=
  decide ('0' ≤ c) && decide (c ≤ '9')

/-- Shape of `new Date().toISOString()` output:
`YYYY-MM-DDTHH:MM:SS.mmmZ` with digits at the seventeen numeric positions. -/
def isIsoTimestamp (ts : String) : Bool :=
  match ts.toList with
  | [y1, y2, y3, y4, '-', mo1, mo2, '-', d1, d2, 'T',
     h1, h2, ':', mi1, mi2, ':', s1, s2, '.', ms1, ms2, ms3, 'Z'] =>
      digitChar y1 && digitChar y2 && digitChar y3 && digitChar y4 &&
      digitChar mo1 && digitChar mo2 && digitChar d1 && digitChar d2 &&
      digitChar h1 && digitChar h2 && digitChar mi1 && digitChar mi2 &&
      digitChar s1 && digitChar s2 && digitChar ms1 && digitChar ms2 && digitChar ms3
  | _ => false

theorem digitChar_ne (c d : Char) (h : digitChar c = true) (hd : digitChar d = false) :
    (c == d) = false := by
  by_cases he : c = d
  · subst he
    rw [h] at hd
    exact Bool.noConfusion hd
  · simp [he]

theorem digit_keep (c : Char) (h : digitChar c = true) :
    (!((c == '-') || (c == ':') || (c == '.'))) = true := by
  rw [digitChar_ne c '-' h (by decide), digitChar_ne c ':' h (by decide),
    digitChar_ne c '.' h (by decide)]
  rfl

theorem nameChar_of_digit (c : Char) (h : digitChar c = true) : nameChar c = true := by
  simp only [digitChar, Bool.and_eq_true, decide_eq_true_eq] at h
  simp [nameChar, h.1, h.2]

theorem strip_iso (y1 y2 y3 y4 mo1 mo2 d1 d2 h1 h2 mi1 mi2 s1 s2 ms1 ms2 ms3 : Char)
    (hy1 : digitChar y1 = true) (hy2 : digitChar y2 = true)
    (hy3 : digitChar y3 = true) (hy4 : digitChar y4 = true)
    (hmo1 : digitChar mo1 = true) (hmo2 : digitChar mo2 = true)
    (hd1 : digitChar d1 = true) (hd2 : digitChar d2 = true)
    (hh1 : digitChar h1 = true) (hh2 : digitChar h2 = true)
    (hmi1 : digitChar mi1 = true) (hmi2 : digitChar mi2 = true)
    (hs1 : digitChar s1 = true) (hs2 : digitChar s2 = true)
    (hms1 : digitChar ms1 = true) (hms2 : digitChar ms2 = true)
    (hms3 : digitChar ms3 = true) :
    (replaceFirstT (stripTsChars [y1, y2, y3, y4, '-', mo1, mo2, '-', d1, d2, 'T',
      h1, h2, ':', mi1, mi2, ':', s1, s2, '.', ms1, ms2, ms3, 'Z'])).take 15 =
      [y1, y2, y3, y4, mo1, mo2, d1, d2, '_', h1, h2, mi1, mi2, s1, s2] := by
  have hT : (!((('T' : Char) == '-') || (('T' : Char) == ':') || (('T' : Char) == '.'))) =
      true := by decide
  have hZ : (!((('Z' : Char) == '-') || (('Z' : Char) == ':') || (('Z' : Char) == '.'))) =
      true := by decide
  have hD : (!((('-' : Char) == '-') || (('-' : Char) == ':') || (('-' : Char) == '.'))) =
      false := by decide
  have hC : (!(((':' : Char) == '-') || ((':' : Char) == ':') || ((':' : Char) == '.'))) =
      false := by decide
  have hP : (!((('.' : Char) == '-') || (('.' : Char) == ':') || (('.' : Char) == '.'))) =
      false := by decide
  have hstrip : stripTsChars [y1, y2, y3, y4, '-', mo1, mo2, '-', d1, d2, 'T',
      h1, h2, ':', mi1, mi2, ':', s1, s2, '.', ms1, ms2, ms3, 'Z'] =
      [y1, y2, y3, y4, mo1, mo2, d1, d2, 'T', h1, h2, mi1, mi2, s1, s2, ms1, ms2, ms3, 'Z'] := by
    simp only [stripTsChars, List.filter_cons, digit_keep _ hy1, digit_keep _ hy2,
      digit_keep _ hy3, digit_keep _ hy4, digit_keep _ hmo1, digit_keep _ hmo2,
      digit_keep _ hd1, digit_keep _ hd2, digit_keep _ hh1, digit_keep _ hh2,
      digit_keep _ hmi1, digit_keep _ hmi2, digit_keep _ hs1, digit_keep _ hs2,
      digit_keep _ hms1, digit_keep _ hms2, digit_keep _ hms3, hT, hZ, hD, hC, hP,
      Bool.false_eq_true, eq_self_iff_true, if_true, if_false, List.filter_nil]
  rw [hstrip]
  have hTT : (('T' : Char) == 'T') = true := by decide
  simp only [replaceFirstT, digitChar_ne y1 'T' hy1 (by decide),
    digitChar_ne y2 'T' hy2 (by decide), digitChar_ne y3 'T' hy3 (by decide),
    digitChar_ne y4 'T' hy4 (by decide), digitChar_ne mo1 'T' hmo1 (by decide),
    digitChar_ne mo2 'T' hmo2 (by decide), digitChar_ne d1 'T' hd1 (by decide),
    digitChar_ne d2 'T' hd2 (by decide), hTT,
    Bool.false_eq_true, eq_self_iff_true, if_true, if_false]
  rfl

theorem beq_str_false_of_len (s t : String)
    (hs : s.toList.length ≠ t.toList.length) : (s == t) = false := by
  cases hb : s == t
  · rfl
  · exact absurd (congrArg (fun u : String => u.toList.length) (eq_of_beq hb)) hs

theorem isReservedName_of_len22 (s : String) (h : s.toList.length = 22) :
    isReservedName s = false := by
  have hlow : (jsToLower s).toList.length = 22 := by
    have hd : (jsToLower s).toList = s.toList.map Char.toLower := rfl
    rw [hd, List.length_map, h]
  rw [isReservedName, beq_str_false_of_len _ _ (by rw [hlow]; decide),
    beq_str_false_of_len _ _ (by rw [hlow]; decide),
    beq_str_false_of_len _ _ (by rw [hlow]; decide),
    beq_str_false_of_len _ _ (by rw [hlow]; decide)]
  rfl

theorem matchesNamePattern_of (s : String) (h1 : 1 ≤ s.toList.length)
    (h2 : s.toList.length ≤ 50) (h3 : s.toList.all nameChar = true) :
    matchesNamePattern s = true := by
  have hlen : s.length = s.toList.length := rfl
  unfold matchesNamePattern
  rw [hlen, h3]
  simp only [Bool.and_true, Bool.and_eq_true, decide_eq_true_eq]
  exact ⟨by omega, by omega⟩

/-- C10.  The auto-generated name: when no (truthy) name is supplied,
`createBackupName` always succeeds with `autoBackupName timestamp` — the
generated name is never re-validated against the pattern — and for every
timestamp of the `toISOString` shape the generated name is the prefix
`backup_` followed by eight date digits, an underscore and six time digits
(`backup_YYYYMMDD_HHMMSS`), which matches the name pattern and is not a
reserved word, so auto-generation can never fail validation. -/
theorem autoGeneratedName_valid (ts : String) :
    createBackupName none ts = Except.ok (autoBackupName ts) ∧
    (isIsoTimestamp ts = true →
      matchesNamePattern (autoBackupName ts) = true ∧
      isReservedName (autoBackupName ts) = false ∧
      ∃ d8 d6 : List Char, d8.length = 8 ∧ d6.length = 6 ∧
        d8.all digitChar = true ∧ d6.all digitChar = true ∧
        autoBackupName ts = "backup_" ++ String.mk d8 ++ "_" ++ String.mk d6) := by
  refine ⟨rfl, ?_⟩
  intro h
  unfold isIsoTimestamp at h
  split at h
  case h_2 => exact absurd h (by decide)
  case h_1 y1 y2 y3 y4 mo1 mo2 d1 d2 hh1 hh2 mi1 mi2 s1 s2 ms1 ms2 ms3 heq =>
    simp only [Bool.and_eq_true] at h
    obtain ⟨⟨⟨⟨⟨⟨⟨⟨⟨⟨⟨⟨⟨⟨⟨⟨hy1, hy2⟩, hy3⟩, hy4⟩, hmo1⟩, hmo2⟩, hd1⟩, hd2⟩, hhh1⟩,
      hhh2⟩, hmi1⟩, hmi2⟩, hs1⟩, hs2⟩, hms1⟩, hms2⟩, hms3⟩ := h
    have hshape : autoBackupName ts =
        "backup_" ++ String.mk [y1, y2, y3, y4, mo1, mo2, d1, d2, '_',
          hh1, hh2, mi1, mi2, s1, s2] := by
      unfold autoBackupName
      rw [heq, strip_iso y1 y2 y3 y4 mo1 mo2 d1 d2 hh1 hh2 mi1 mi2 s1 s2 ms1 ms2 ms3
        hy1 hy2 hy3 hy4 hmo1 hmo2 hd1 hd2 hhh1 hhh2 hmi1 hmi2 hs1 hs2 hms1 hms2 hms3]
    have htl : (autoBackupName ts).toList =
        ['b', 'a', 'c', 'k', 'u', 'p', '_', y1, y2, y3, y4, mo1, mo2, d1, d2, '_',
          hh1, hh2, mi1, mi2, s1, s2] := by
      rw [hshape]
      rfl
    have hlen : (autoBackupName ts).toList.length = 22 := by
      rw [htl]
      rfl
    refine ⟨?_, isReservedName_of_len22 _ hlen, ?_⟩
    · refine matchesNamePattern_of _ (by rw [hlen]; decide) (by rw [hlen]; decide) ?_
      rw [htl]
      simp only [List.all_cons, List.all_nil, nameChar_of_digit _ hy1,
        nameChar_of_digit _ hy2, nameChar_of_digit _ hy3, nameChar_of_digit _ hy4,
        nameChar_of_digit _ hmo1, nameChar_of_digit _ hmo2, nameChar_of_digit _ hd1,
        nameChar_of_digit _ hd2, nameChar_of_digit _ hhh1, nameChar_of_digit _ hhh2,
        nameChar_of_digit _ hmi1, nameChar_of_digit _ hmi2, nameChar_of_digit _ hs1,
        nameChar_of_digit _ hs2, Bool.and_true, Bool.true_and]
      decide
    · refine ⟨[y1, y2, y3, y4, mo1, mo2, d1, d2], [hh1, hh2, mi1, mi2, s1, s2],
        rfl, rfl, ?_, ?_, ?_⟩
      · simp [hy1, hy2, hy3, hy4, hmo1, hmo2, hd1, hd2]
      · simp [hhh1, hhh2, hmi1, hmi2, hs1, hs2]
      · rw [hshape]
        rfl

/-- Witness for C10 at a concrete ISO timestamp. -/
theorem autoGeneratedName_valid_witness :
    isIsoTimestamp "2026-10-12T03:04:05.678Z" = true ∧
    createBackupName none "2026-10-12T03:04:05.678Z" =
      Except.ok (autoBackupName "2026-10-12T03:04:05.678Z") ∧
    (matchesNamePattern (autoBackupName "2026-10-12T03:04:05.678Z") = true ∧
      isReservedName (autoBackupName "2026-10-12T03:04:05.678Z") = false ∧
      ∃ d8 d6 : List Char, d8.length = 8 ∧ d6.length = 6 ∧
        d8.all digitChar = true ∧ d6.all digitChar = true ∧
        autoBackupName "2026-10-12T03:04:05.678Z" =
          "backup_" ++ String.mk d8 ++ "_" ++ String.mk d6) :=
  ⟨by decide, (autoGeneratedName_valid "2026-10-12T03:04:05.678Z").1,
   (autoGeneratedName_valid "2026-10-12T03:04:05.678Z").2 (by decide)⟩
